import Mathlib

/-!
Verification development for the fluentbase execution runtime and boundary
codec.  The runtime model is a shallow embedding of
`crates/runtime/src/runtime.rs`; the external rwasm engine (parsing,
instantiation, guest execution, trap-code table) is abstracted as an oracle
record, since it is an external collaborator of the repository.  The boundary
codec embeds `codec/src/vec.rs`; the buffer encoder/decoder primitives it
builds on live in codec files outside the provided sources and are modelled
from the specification.  Byte sequences are `List Nat` with each byte reduced
modulo 256 at the point where the source truncates.
-/

/- ### Boundary codec: buffer primitives (modelled from the spec) -/

/-- Overwrite `bytes.length` bytes of `buf` starting at position `off`. -/
def writeAt (buf : List Nat) (off : Nat) (bytes : List Nat) : List Nat :=
  buf.take off ++ bytes ++ buf.drop (off + bytes.length)

/-- Little-endian 4-byte encoding of a 32-bit value; each byte is reduced
modulo 256, so the encoded value is `v % 2^32`. -/
def u32le (v : Nat) : List Nat :=
  [v % 256, v / 256 % 256, v / 65536 % 256, v / 16777216 % 256]

/-- Read one byte of a buffer; bytes beyond the end read as zero. -/
def readByte (buf : List Nat) (i : Nat) : Nat :=
  buf.getD i 0

/-- Read a little-endian unsigned 32-bit value at byte offset `off`. -/
def readU32 (buf : List Nat) (off : Nat) : Nat :=
  readByte buf off + 256 * readByte buf (off + 1) +
    65536 * readByte buf (off + 2) + 16777216 * readByte buf (off + 3)

/-- Modelled from the spec: `BufferEncoder` (codec crate, file not under the
provided sources).  It owns a fixed-size header region and a growing dynamic
region; `finalize` concatenates the two. -/
structure BufferEncoder where
  fixed : List Nat
  dynamic : List Nat
deriving DecidableEq

/-- Modelled from the spec: `BufferEncoder::new(header_size, None)` allocates
a zeroed header region of `headerSize` bytes and an empty dynamic region. -/
def BufferEncoder.new (headerSize : Nat) : BufferEncoder :=
  { fixed := List.replicate headerSize 0, dynamic := [] }

/-- Modelled from the spec: `write_u32` stores a little-endian 32-bit value
at a header offset. -/
def BufferEncoder.write_u32 (e : BufferEncoder) (off v : Nat) : BufferEncoder :=
  { e with fixed := writeAt e.fixed off (u32le v) }

/-- Modelled from the spec: `write_bytes` records the `(absolute offset,
length)` pair of the payload at the given header offset and appends the
payload to the dynamic region. -/
def BufferEncoder.write_bytes (e : BufferEncoder) (off : Nat) (bytes : List Nat) :
    BufferEncoder :=
  { fixed := writeAt e.fixed off (u32le (e.fixed.length + e.dynamic.length) ++ u32le bytes.length),
    dynamic := e.dynamic ++ bytes }

/-- Modelled from the spec: `finalize` returns header region then dynamic
region. -/
def BufferEncoder.finalize (e : BufferEncoder) : List Nat :=
  e.fixed ++ e.dynamic

/-- Modelled from the spec: `BufferDecoder::read_bytes_header` reads the
`(offset, length)` pair stored at a header offset. -/
def read_bytes_header (buf : List Nat) (off : Nat) : Nat × Nat :=
  (readU32 buf off, readU32 buf (off + 4))

/-- Modelled from the spec: `BufferDecoder::read_bytes` slices the payload
designated by the `(offset, length)` pair stored at a header offset. -/
def read_bytes (buf : List Nat) (off : Nat) : List Nat :=
  ((buf.drop (read_bytes_header buf off).1).take (read_bytes_header buf off).2)

/- ### Boundary codec: the `Vec<T>` encoder from `codec/src/vec.rs` -/

/-- An element codec: the `Encoder<T>` trait instance for the element type,
with its header size, encoder, and body decoder. -/
structure ElemCodec (α : Type) where
  headerSize : Nat
  encode : α → BufferEncoder → Nat → BufferEncoder
  decode_body : List Nat → Nat → α

/-- The loop of `Vec::<T>::encode`: each element `i` encodes at offset
`T::HEADER_SIZE * i` of the value encoder. -/
def encodeElems (c : ElemCodec α) : List α → Nat → BufferEncoder → BufferEncoder
  | [], _, e => e
  | x :: xs, i, e => encodeElems c xs (i + 1) (c.encode x e (c.headerSize * i))

namespace VecCodec

/-- `Vec<T>` header size from the source: three `u32` slots. -/
def HEADER_SIZE : Nat := 4 * 3

/-- Embedding of `Vec::<T>::encode`: write the element count, encode elements
into a fresh value encoder of `T::HEADER_SIZE * len` header bytes, and attach
the finalized value buffer as the payload at `field_offset + 4`. -/
def encode (c : ElemCodec α) (v : List α) (encoder : BufferEncoder)
    (field_offset : Nat) : BufferEncoder :=
  let encoder := encoder.write_u32 field_offset v.length
  let value_encoder := BufferEncoder.new (c.headerSize * v.length)
  let value_encoder := encodeElems c v 0 value_encoder
  encoder.write_bytes (field_offset + 4) value_encoder.finalize

/-- Embedding of `Vec::<T>::decode_header`: reads the element count (for
capacity) and returns the payload `(offset, length)` pair. -/
def decode_header (c : ElemCodec α) (decoder : List Nat) (field_offset : Nat) :
    Nat × Nat :=
  read_bytes_header decoder (field_offset + 4)

/-- Embedding of `Vec::<T>::decode_body`: read the element count, slice the
payload, and decode each element at offset `T::HEADER_SIZE * i` of the
payload. -/
def decode_body (c : ElemCodec α) (decoder : List Nat) (field_offset : Nat) :
    List α :=
  let input_len := readU32 decoder field_offset
  let input_bytes := read_bytes decoder (field_offset + 4)
  (List.range input_len).map (fun i => c.decode_body input_bytes (c.headerSize * i))

/-- Modelled from the spec: the top-level encoding entry builds a buffer
encoder sized to the value's header and encodes at field offset 0. -/
def encode_to_vec (c : ElemCodec α) (v : List α) : List Nat :=
  (encode c v (BufferEncoder.new HEADER_SIZE) 0).finalize

/-- Modelled from the spec: the top-level decoding entry decodes the body at
field offset 0 over the whole buffer. -/
def decode_from (c : ElemCodec α) (buf : List Nat) : List α :=
  decode_body c buf 0

end VecCodec

/-- Modelled from the spec: the primitive byte codec (`u8` encoder of the
codec crate, file not under the provided sources): one header byte holding
the value. -/
def byteCodec : ElemCodec (Fin 256) :=
  { headerSize := 1,
    encode := fun b e off => { e with fixed := writeAt e.fixed off [b.val] },
    decode_body := fun buf off => ⟨readByte buf off % 256, Nat.mod_lt _ (by decide)⟩ }

/-- Concatenation of the header bytes of a list of elements. -/
def concatRep (rep : α → List Nat) : List α → List Nat
  | [] => []
  | x :: xs => rep x ++ concatRep rep xs

/-- The `Vec<T>` codec as an element codec itself: `Encoder<Vec<T>>` from
`vec.rs`, so that vectors can be elements of vectors. -/
def vecCodec (c : ElemCodec α) : ElemCodec (List α) :=
  { headerSize := VecCodec.HEADER_SIZE,
    encode := fun v e off => VecCodec.encode c v e off,
    decode_body := fun buf off => VecCodec.decode_body c buf off }

/-- The body bytes a vector value contributes to the enclosing buffer: its
finalized value encoder (element headers then element bodies). -/
def vecBody (c : ElemCodec α) (v : List α) : List Nat :=
  (encodeElems c v 0 (BufferEncoder.new (c.headerSize * v.length))).finalize

/-- The 12-byte header chunk a vector writes at its field offset when its
body will land at absolute position `p`: count, body offset, body length. -/
def vecHdr (c : ElemCodec α) (v : List α) (p : Nat) : List Nat :=
  u32le v.length ++ u32le p ++ u32le (vecBody c v).length

/-- Well-formedness of a vector value: its count and body length fit the
32-bit header fields and every element is well-formed. -/
def vecOk (c : ElemCodec α) (ok : α → Prop) (v : List α) : Prop :=
  v.length < 4294967296 ∧ (vecBody c v).length < 4294967296 ∧ ∀ x ∈ v, ok x

/-- Concatenation of the header chunks of a list of elements whose bodies
are appended in order starting at absolute position `p`. -/
def hdrsAt (hdr : α → Nat → List Nat) (body : α → List Nat) : Nat → List α → List Nat
  | _, [] => []
  | p, x :: xs => hdr x p ++ hdrsAt hdr body (p + (body x).length) xs

/-- The header chunk of the primitive byte codec: the byte itself, with no
body position dependence. -/
def byteHdr (b : Fin 256) (p : Nat) : List Nat := [b.val]

/-- The primitive byte codec appends no body bytes. -/
def byteBody (b : Fin 256) : List Nat := []

/-- Every byte value is well-formed. -/
def byteOk (b : Fin 256) : Prop := True

/-- Lawfulness of an element codec under the buffer-encoder discipline of
spec §4.9: encoding at an in-bounds offset writes a `headerSize`-byte chunk
(which may reference `p`, the current end-of-buffer position where the
element's body will land) into the fixed region and appends the element's
body bytes to the dynamic region; decoding recovers a well-formed element
from its header chunk and its body found at the referenced position. -/
structure DynCodecLaw (c : ElemCodec α) (hdr : α → Nat → List Nat)
    (body : α → List Nat) (ok : α → Prop) : Prop where
  size_pos : 0 < c.headerSize
  hdr_len : ∀ x p, (hdr x p).length = c.headerSize
  encode_eq : ∀ x e off, off + c.headerSize ≤ e.fixed.length →
    c.encode x e off =
      { fixed := writeAt e.fixed off (hdr x (e.fixed.length + e.dynamic.length)),
        dynamic := e.dynamic ++ body x }
  decode_of_parts : ∀ x buf off p, ok x → p < 4294967296 →
    (buf.drop off).take c.headerSize = hdr x p →
    (buf.drop p).take (body x).length = body x →
    c.decode_body buf off = x

/- ### Runtime model: error taxonomy -/

/-- Engine trap codes named by the spec (external engine enumeration). -/
inductive TrapCode where
  | unreachableCodeReached
  | memoryOutOfBounds
  | integerDivisionByZero
  | stackOverflow
  | outOfFuel
  | indirectCallTypeMismatch
deriving DecidableEq

/-- An engine trap: it may carry an explicit i32 exit status (guest
`sys_halt`) and may carry an engine trap code; `Runtime::catch_trap` queries
both accessors. -/
structure Trap where
  i32_exit_status : Option Int
  trap_code : Option TrapCode
deriving DecidableEq

/-- The external `rwasm::Error`: a trap, or some other engine-level error. -/
inductive RwasmError where
  | trap (t : Trap)
  | other
deriving DecidableEq

/-- The runtime error type (`RuntimeError` of the runtime crate): an rwasm
engine error, a missing `"main"` export, or another host-level error. -/
inductive RuntimeError where
  | rwasm (e : RwasmError)
  | missingEntrypoint
  | other
deriving DecidableEq

/-- Modelled from the spec: the sentinel `ExitCode::UnknownError` of the
external `fluentbase_types` exit-code enumeration is `-1` (negative codes
are reserved for host-originated failures). -/
def ExitCode.UnknownError : Int := -1

/- ### Runtime model: context and result -/

/-- Embedding of `RuntimeContext<DB>`: per-invocation record of inputs,
outputs and the optional journaled state DB handle. -/
structure RuntimeContext (DB : Type) where
  bytecode : List Nat
  fuel_limit : Nat
  state : Nat
  is_shared : Bool
  catch_trap : Bool
  input : List Nat
  exit_code : Int
  output : List Nat
  consumed_fuel : Nat
  return_data : List Nat
  jzkt : Option DB
deriving DecidableEq

/-- Embedding of `impl Default for RuntimeContext`. -/
def RuntimeContext.mkDefault (DB : Type) : RuntimeContext DB :=
  { bytecode := []
    fuel_limit := 0
    state := 0
    is_shared := false
    catch_trap := true
    input := []
    exit_code := 0
    output := []
    consumed_fuel := 0
    return_data := []
    jzkt := none }

/-- Embedding of `RuntimeContext::new`: the given bytecode over the default
record. -/
def RuntimeContext.new (DB : Type) (bytecode : List Nat) : RuntimeContext DB :=
  { RuntimeContext.mkDefault DB with bytecode := bytecode }

/-- Embedding of `RuntimeContext::with_input`. -/
def RuntimeContext.with_input (c : RuntimeContext DB) (input_data : List Nat) :
    RuntimeContext DB :=
  { c with input := input_data }

/-- Embedding of `RuntimeContext::with_state`. -/
def RuntimeContext.with_state (c : RuntimeContext DB) (state : Nat) :
    RuntimeContext DB :=
  { c with state := state }

/-- Embedding of `RuntimeContext::with_is_shared`. -/
def RuntimeContext.with_is_shared (c : RuntimeContext DB) (is_shared : Bool) :
    RuntimeContext DB :=
  { c with is_shared := is_shared }

/-- Embedding of `RuntimeContext::with_catch_trap`. -/
def RuntimeContext.with_catch_trap (c : RuntimeContext DB) (catch_trap : Bool) :
    RuntimeContext DB :=
  { c with catch_trap := catch_trap }

/-- Embedding of `RuntimeContext::with_fuel_limit`. -/
def RuntimeContext.with_fuel_limit (c : RuntimeContext DB) (fuel_limit : Nat) :
    RuntimeContext DB :=
  { c with fuel_limit := fuel_limit }

/-- Embedding of `RuntimeContext::with_jzkt`. -/
def RuntimeContext.with_jzkt (c : RuntimeContext DB) (jzkt : DB) :
    RuntimeContext DB :=
  { c with jzkt := some jzkt }

/-- Embedding of `RuntimeContext::clean_output`: reset `output` to empty. -/
def RuntimeContext.clean_output (c : RuntimeContext DB) : RuntimeContext DB :=
  { c with output := [] }

/-- Embedding of `ExecutionResult<DB>`: post-run context, trace, and the
optional fuel tally. -/
structure ExecutionResult (DB : Type) where
  runtime_context : RuntimeContext DB
  tracer : List Nat
  fuel_consumed : Option Nat
deriving DecidableEq

/- ### Runtime model: engine configuration and oracle -/

/-- The external engine's fuel consumption modes. -/
inductive FuelConsumptionMode where
  | lazyMode
  | eagerMode
deriving DecidableEq

/-- Observable engine configuration fields set by `Runtime::new_uninit`. -/
structure EngineConfig where
  floats : Bool
  consumeFuel : Bool
  fuelMode : Option FuelConsumptionMode
deriving DecidableEq

/-- Modelled from the spec: `RwasmModule::default_config` is the external
engine's base configuration — floating point enabled, fuel metering off
(§4.2 derives fuel policy solely from `fuel_limit`). -/
def RwasmModule.default_config : EngineConfig :=
  { floats := true, consumeFuel := false, fuelMode := none }

/-- Outcome of the guest entry invocation as observed through the store:
the post-call context, the optional call error, the accumulated trace and
the fuel consumed. -/
structure GuestOutcome (DB : Type) where
  ctx : RuntimeContext DB
  err : Option RuntimeError
  trace : List Nat
  fuelConsumed : Nat

/-- Abstraction of the external rwasm engine as used by the runtime:
trap-code-to-exit-code table, bytecode parse outcome, instantiation outcome,
presence of the zero-argument `"main"` export, and the guest entry
invocation. -/
structure EngineOracle (DB : Type) where
  trapCodeExit : TrapCode → Int
  parseErr : List Nat → Option RuntimeError
  instErr : RuntimeContext DB → Option RuntimeError
  hasMain : List Nat → Bool
  callMain : RuntimeContext DB → GuestOutcome DB

/-- Embedding of `Runtime<DB>`: engine configuration, the store's context,
the fuel credited to the store, and whether instantiation has happened. -/
structure Runtime (DB : Type) where
  config : EngineConfig
  storeCtx : RuntimeContext DB
  storeFuel : Nat
  hasInstance : Bool

/- ### Runtime model: the runtime functions of `runtime.rs` -/

/-- Embedding of `Runtime::new_uninit`: configure the engine (floats off;
eager fuel when `fuel_limit > 0`), parse the bytecode (may fail), create the
store holding the context, and credit `fuel_limit` units of fuel when
metered. -/
def Runtime.new_uninit (o : EngineOracle DB) (runtime_context : RuntimeContext DB) :
    Except RuntimeError (Runtime DB) :=
  let fuel_limit := runtime_context.fuel_limit
  let config := RwasmModule.default_config
  let config := { config with floats := false }
  let config :=
    if 0 < fuel_limit then
      { config with fuelMode := some FuelConsumptionMode.eagerMode, consumeFuel := true }
    else config
  match o.parseErr runtime_context.bytecode with
  | some e => Except.error e
  | none =>
      Except.ok
        { config := config
          storeCtx := runtime_context
          storeFuel := if 0 < fuel_limit then fuel_limit else 0
          hasInstance := false }

/-- Embedding of `Runtime::register_bindings`: selects the sovereign or the
shared handler set; the handlers' behavior is observed through the oracle's
guest step, so registration itself has no further observable field. -/
def Runtime.register_bindings (self : Runtime DB) : Runtime DB :=
  self

/-- Embedding of `Runtime::instantiate`: linker instantiation plus start
function (may fail through the engine). -/
def Runtime.instantiate (o : EngineOracle DB) (self : Runtime DB) :
    Except RuntimeError (Runtime DB) :=
  match o.instErr self.storeCtx with
  | some e => Except.error e
  | none => Except.ok { self with hasInstance := true }

/-- Embedding of `Runtime::new`: `new_uninit`, then `register_bindings`,
then `instantiate`. -/
def Runtime.new (o : EngineOracle DB) (runtime_context : RuntimeContext DB) :
    Except RuntimeError (Runtime DB) :=
  match Runtime.new_uninit o runtime_context with
  | Except.error e => Except.error e
  | Except.ok result => Runtime.instantiate o (Runtime.register_bindings result)

/-- Embedding of `Runtime::catch_trap`: an explicit i32 exit status is
returned verbatim; otherwise an engine trap code goes through the exit-code
table; any non-trap error yields `UnknownError`. -/
def Runtime.catch_trap (table : TrapCode → Int) (err : RuntimeError) : Int :=
  match err with
  | RuntimeError.rwasm e =>
      match e with
      | RwasmError.trap t =>
          match t.i32_exit_status with
          | some exit_status => exit_status
          | none =>
              match t.trap_code with
              | some trap_code => table trap_code
              | none => ExitCode.UnknownError
      | _ => ExitCode.UnknownError
  | _ => ExitCode.UnknownError

/-- Embedding of `Runtime::call`: locate `"main"` (else
`MissingEntrypoint`), invoke it, and on error either propagate it (non-zero
translated code with `catch_trap` off) or store the translated code into
`exit_code`; finally snapshot the store. -/
def Runtime.call (o : EngineOracle DB) (self : Runtime DB) :
    Except RuntimeError (ExecutionResult DB) :=
  if o.hasMain self.storeCtx.bytecode then
    let out := o.callMain self.storeCtx
    match out.err with
    | none =>
        Except.ok
          { runtime_context := out.ctx
            tracer := out.trace
            fuel_consumed := if self.config.consumeFuel then some out.fuelConsumed else none }
    | some err =>
        let exit_code := Runtime.catch_trap o.trapCodeExit err
        if exit_code ≠ 0 ∧ out.ctx.catch_trap = false then Except.error err
        else
          Except.ok
            { runtime_context := { out.ctx with exit_code := exit_code }
              tracer := out.trace
              fuel_consumed := if self.config.consumeFuel then some out.fuelConsumed else none }
  else Except.error RuntimeError.missingEntrypoint

/-- Embedding of `Runtime::run_with_context`: snapshot `catch_trap`, build
the runtime; a load error with `catch_trap` on becomes a successful result
carrying the translated exit code over the original context; otherwise clear
`output` in the store and call the entry point. -/
def Runtime.run_with_context (o : EngineOracle DB) (runtime_context : RuntimeContext DB) :
    Except RuntimeError (ExecutionResult DB) :=
  let catch_error := runtime_context.catch_trap
  match Runtime.new o runtime_context with
  | Except.error e =>
      if catch_error then
        Except.ok
          { runtime_context :=
              { runtime_context with exit_code := Runtime.catch_trap o.trapCodeExit e }
            tracer := []
            fuel_consumed := none }
      else Except.error e
  | Except.ok runtime =>
      let runtime := { runtime with storeCtx := runtime.storeCtx.clean_output }
      Runtime.call o runtime

/- ### Concrete oracles and contexts used as witnesses and counterexamples -/

/-- A well-behaved engine: parsing and instantiation succeed, `"main"` is
exported, and the guest returns cleanly without touching the context. -/
def plainOracle : EngineOracle Unit :=
  { trapCodeExit := fun _ => -1
    parseErr := fun _ => none
    instErr := fun _ => none
    hasMain := fun _ => true
    callMain := fun c => { ctx := c, err := none, trace := [], fuelConsumed := 0 } }

/-- An engine whose module has no zero-argument `"main"` export. -/
def noMainOracle : EngineOracle Unit :=
  { trapCodeExit := fun _ => -1
    parseErr := fun _ => none
    instErr := fun _ => none
    hasMain := fun _ => false
    callMain := fun c => { ctx := c, err := none, trace := [], fuelConsumed := 0 } }

/-- An engine on which bytecode parsing fails with a non-trap rwasm error. -/
def badParseOracle : EngineOracle Unit :=
  { trapCodeExit := fun _ => -1
    parseErr := fun _ => some (RuntimeError.rwasm RwasmError.other)
    instErr := fun _ => none
    hasMain := fun _ => true
    callMain := fun c => { ctx := c, err := none, trace := [], fuelConsumed := 0 } }

/-- An engine whose guest sets `exit_code` to `5` through a binding and then
halts with an explicit exit status of `0` (graceful-exit trap). -/
def gracefulHaltOracle : EngineOracle Unit :=
  { trapCodeExit := fun _ => -1
    parseErr := fun _ => none
    instErr := fun _ => none
    hasMain := fun _ => true
    callMain := fun c =>
      { ctx := { c with exit_code := 5 }
        err := some (RuntimeError.rwasm
          (RwasmError.trap { i32_exit_status := some 0, trap_code := none }))
        trace := []
        fuelConsumed := 0 } }

/-- A caller context carrying a nonempty `output` from a prior invocation. -/
def carriedCtx : RuntimeContext Unit :=
  { RuntimeContext.new Unit [] with output := [1] }

/-- A caller context with a nonzero fuel limit. -/
def fueledCtx : RuntimeContext Unit :=
  (RuntimeContext.new Unit []).with_fuel_limit 5

/-- The runtime `new_uninit` produces for `fueledCtx` under any parsing
success. -/
def fueledRt : Runtime Unit :=
  { config := { floats := false, consumeFuel := true,
                fuelMode := some FuelConsumptionMode.eagerMode }
    storeCtx := fueledCtx
    storeFuel := 5
    hasInstance := false }

/-- A caller context carrying nonempty `output`, used to observe the
output-clearing behavior on the successful-load path. -/
def dirtyCtx : RuntimeContext Unit :=
  { RuntimeContext.new Unit [] with output := [9] }

/-- The runtime `Runtime.new` produces for `dirtyCtx` under `plainOracle`. -/
def dirtyRt : Runtime Unit :=
  { config := { floats := false, consumeFuel := false, fuelMode := none }
    storeCtx := dirtyCtx
    storeFuel := 0
    hasInstance := true }

/-- The execution result of running `dirtyCtx` under `plainOracle`. -/
def dirtyRunResult : ExecutionResult Unit :=
  { runtime_context := dirtyCtx.clean_output, tracer := [], fuel_consumed := none }

/-- A base runtime over an empty default context, already instantiated. -/
def baseRt : Runtime Unit :=
  { config := { floats := false, consumeFuel := false, fuelMode := none }
    storeCtx := RuntimeContext.new Unit []
    storeFuel := 0
    hasInstance := true }

/- ### Helper lemmas about the runtime model -/

/-- A successfully built runtime stores exactly the caller's context. -/
theorem Runtime.new_ok_storeCtx (o : EngineOracle DB) (ctx : RuntimeContext DB)
    (rt : Runtime DB) (h : Runtime.new o ctx = Except.ok rt) : rt.storeCtx = ctx := by
  unfold Runtime.new Runtime.new_uninit Runtime.register_bindings Runtime.instantiate at h
  cases hp : o.parseErr ctx.bytecode with
  | some e => simp only [hp] at h; exact Except.noConfusion h
  | none =>
    simp only [hp] at h
    cases hi : o.instErr ctx with
    | some e => simp only [hi] at h; exact Except.noConfusion h
    | none =>
      simp only [hi, Except.ok.injEq] at h
      subst h
      rfl

/- ### Claim theorems -/

/-- C10: `RuntimeContext::new(bytecode)` takes the defaults: `catch_trap`
true, `fuel_limit` 0, `is_shared` false, `state` 0, `exit_code` 0, empty
`input`, `output` and `return_data`, and no state DB handle. -/
theorem runtime_context_new_defaults (DB : Type) (b : List Nat) :
    (RuntimeContext.new DB b).bytecode = b ∧
    (RuntimeContext.new DB b).catch_trap = true ∧
    (RuntimeContext.new DB b).fuel_limit = 0 ∧
    (RuntimeContext.new DB b).is_shared = false ∧
    (RuntimeContext.new DB b).state = 0 ∧
    (RuntimeContext.new DB b).exit_code = 0 ∧
    (RuntimeContext.new DB b).input = [] ∧
    (RuntimeContext.new DB b).output = [] ∧
    (RuntimeContext.new DB b).return_data = [] ∧
    (RuntimeContext.new DB b).jzkt = none :=
  ⟨rfl, rfl, rfl, rfl, rfl, rfl, rfl, rfl, rfl, rfl⟩

/-- C3: `Runtime::catch_trap` is a pure function of the error alone (it is a
plain function of the error value) and classifies in order: an explicit i32
exit status is returned verbatim, winning over trap-code classification;
otherwise a trap code is mapped through the exit-code table; any non-trap
error yields the `UnknownError` sentinel. -/
theorem catch_trap_classification (table : TrapCode → Int) :
    (∀ t s, t.i32_exit_status = some s →
      Runtime.catch_trap table (RuntimeError.rwasm (RwasmError.trap t)) = s) ∧
    (∀ t tc, t.i32_exit_status = none → t.trap_code = some tc →
      Runtime.catch_trap table (RuntimeError.rwasm (RwasmError.trap t)) = table tc) ∧
    (∀ t, t.i32_exit_status = none → t.trap_code = none →
      Runtime.catch_trap table (RuntimeError.rwasm (RwasmError.trap t)) =
        ExitCode.UnknownError) ∧
    Runtime.catch_trap table (RuntimeError.rwasm RwasmError.other) =
      ExitCode.UnknownError ∧
    Runtime.catch_trap table RuntimeError.missingEntrypoint = ExitCode.UnknownError ∧
    Runtime.catch_trap table RuntimeError.other = ExitCode.UnknownError := by
  refine ⟨?_, ?_, ?_, rfl, rfl, rfl⟩
  · intro t s h
    obtain ⟨es, tc⟩ := t
    simp only at h
    subst h
    rfl
  · intro t tc h1 h2
    obtain ⟨es, tc0⟩ := t
    simp only at h1 h2
    subst h1; subst h2
    rfl
  · intro t h1 h2
    obtain ⟨es, tc0⟩ := t
    simp only at h1 h2
    subst h1; subst h2
    rfl

/-- C3 witness: the three trap shapes at concrete inputs. -/
theorem catch_trap_classification_witness :
    Runtime.catch_trap (fun _ => -2)
      (RuntimeError.rwasm (RwasmError.trap
        { i32_exit_status := some 7, trap_code := some TrapCode.outOfFuel })) = 7 ∧
    Runtime.catch_trap (fun _ => -2)
      (RuntimeError.rwasm (RwasmError.trap
        { i32_exit_status := none, trap_code := some TrapCode.outOfFuel })) = -2 ∧
    Runtime.catch_trap (fun _ => -2)
      (RuntimeError.rwasm (RwasmError.trap
        { i32_exit_status := none, trap_code := none })) = ExitCode.UnknownError :=
  ⟨(catch_trap_classification (fun _ => -2)).1 _ 7 rfl,
   (catch_trap_classification (fun _ => -2)).2.1 _ _ rfl rfl,
   (catch_trap_classification (fun _ => -2)).2.2.1 _ rfl rfl⟩

/-- When a `call` returns a propagated error and the guest step preserved a
`catch_trap = true` policy, the error can only be the missing-entrypoint
failure. -/
theorem Runtime.call_error_is_missing_entrypoint (o : EngineOracle DB) (rt : Runtime DB)
    (e : RuntimeError)
    (hkeep : (o.callMain rt.storeCtx).ctx.catch_trap = true)
    (h : Runtime.call o rt = Except.error e) : e = RuntimeError.missingEntrypoint := by
  unfold Runtime.call at h
  by_cases hm : o.hasMain rt.storeCtx.bytecode = true
  · rw [if_pos hm] at h
    cases hE : (o.callMain rt.storeCtx).err with
    | none => simp only [hE] at h; exact Except.noConfusion h
    | some err =>
      simp only [hE] at h
      have hcond : ¬(Runtime.catch_trap o.trapCodeExit err ≠ 0 ∧
          (o.callMain rt.storeCtx).ctx.catch_trap = false) := by
        intro hx
        rw [hkeep] at hx
        exact Bool.noConfusion hx.2
      rw [if_neg hcond] at h
      exact Except.noConfusion h
  · rw [if_neg hm] at h
    simp only [Except.error.injEq] at h
    exact h.symm

/-- The catch-trap load-error path of `run_with_context`: the translated exit
code over the otherwise untouched caller context, with an empty trace and no
fuel tally. -/
theorem Runtime.run_load_error (o : EngineOracle DB) (ctx : RuntimeContext DB)
    (e : RuntimeError) (hc : ctx.catch_trap = true)
    (h : Runtime.new o ctx = Except.error e) :
    Runtime.run_with_context o ctx =
      Except.ok
        { runtime_context := { ctx with exit_code := Runtime.catch_trap o.trapCodeExit e }
          tracer := []
          fuel_consumed := none } := by
  unfold Runtime.run_with_context
  simp [h, hc]

/-- A successful `call` snapshots the store, so the result's `output` is the
guest step's output. -/
theorem Runtime.call_ok_output (o : EngineOracle DB) (rt : Runtime DB)
    (r : ExecutionResult DB) (h : Runtime.call o rt = Except.ok r) :
    r.runtime_context.output = (o.callMain rt.storeCtx).ctx.output := by
  unfold Runtime.call at h
  by_cases hm : o.hasMain rt.storeCtx.bytecode = true
  · rw [if_pos hm] at h
    cases hE : (o.callMain rt.storeCtx).err with
    | none =>
      simp only [hE, Except.ok.injEq] at h
      rw [← h]
    | some err =>
      simp only [hE] at h
      by_cases hcond : Runtime.catch_trap o.trapCodeExit err ≠ 0 ∧
          (o.callMain rt.storeCtx).ctx.catch_trap = false
      · rw [if_pos hcond] at h
        exact Except.noConfusion h
      · rw [if_neg hcond] at h
        simp only [Except.ok.injEq] at h
        rw [← h]
  · rw [if_neg hm] at h
    exact Except.noConfusion h

/-- C1 counterexample: with `catch_trap = true` and well-formed bytecode
whose module lacks a `"main"` export, `run_with_context` returns a propagated
`MissingEntrypoint` error, not an `Ok` result. -/
theorem run_with_context_catch_trap_cex :
    (RuntimeContext.new Unit []).catch_trap = true ∧
    Runtime.run_with_context noMainOracle (RuntimeContext.new Unit []) =
      Except.error RuntimeError.missingEntrypoint :=
  ⟨rfl, rfl⟩

/-- C1 (amended): with `catch_trap = true` (and guest bindings preserving the
trap policy), the only error `run_with_context` can propagate is
`MissingEntrypoint`; every other failure is absorbed into the result's
`exit_code`. -/
theorem run_with_context_errors_are_missing_entrypoint (o : EngineOracle DB)
    (ctx : RuntimeContext DB) (e : RuntimeError)
    (hc : ctx.catch_trap = true)
    (hkeep : (o.callMain ctx.clean_output).ctx.catch_trap = true)
    (h : Runtime.run_with_context o ctx = Except.error e) :
    e = RuntimeError.missingEntrypoint := by
  cases hN : Runtime.new o ctx with
  | error e2 =>
    unfold Runtime.run_with_context at h
    simp [hN, hc] at h
  | ok rt =>
    have hs := Runtime.new_ok_storeCtx o ctx rt hN
    unfold Runtime.run_with_context at h
    simp only [hN] at h
    refine Runtime.call_error_is_missing_entrypoint o _ e ?_ h
    dsimp only
    rw [hs]
    exact hkeep

/-- C1 witness: the amended theorem applied at the no-entrypoint engine. -/
theorem run_with_context_errors_are_missing_entrypoint_witness :
    (RuntimeContext.new Unit []).catch_trap = true ∧
    Runtime.run_with_context noMainOracle (RuntimeContext.new Unit []) =
      Except.error RuntimeError.missingEntrypoint ∧
    RuntimeError.missingEntrypoint = RuntimeError.missingEntrypoint :=
  ⟨rfl, rfl,
    run_with_context_errors_are_missing_entrypoint noMainOracle
      (RuntimeContext.new Unit []) RuntimeError.missingEntrypoint rfl rfl rfl⟩

/-- C2 counterexample: a guest that sets `exit_code = 5` through a binding
and then halts with explicit status `0`: the translated code is `0`, `call`
treats it as success, but the stored `exit_code` is overwritten with `0`
rather than left at `5`. -/
theorem call_exit_zero_overwrite_cex :
    (gracefulHaltOracle.callMain baseRt.storeCtx).ctx.exit_code = 5 ∧
    Runtime.catch_trap gracefulHaltOracle.trapCodeExit
      (RuntimeError.rwasm (RwasmError.trap
        { i32_exit_status := some 0, trap_code := none })) = 0 ∧
    Runtime.call gracefulHaltOracle baseRt =
      Except.ok
        { runtime_context := RuntimeContext.new Unit []
          tracer := []
          fuel_consumed := none } ∧
    (RuntimeContext.new Unit []).exit_code = 0 :=
  ⟨rfl, rfl, rfl, rfl⟩

/-- C2 (amended): on a guest entry error, `call` propagates the error exactly
when `catch_trap` is false and the translated code is non-zero; when
`catch_trap` is true the translated code is stored into `exit_code` and `Ok`
is returned; when the translated code is `0` the invocation is treated as
success and `0` is stored into `exit_code` (overwriting it) regardless of
`catch_trap`. -/
theorem call_guest_error_branches (o : EngineOracle DB) (rt : Runtime DB)
    (err : RuntimeError)
    (hm : o.hasMain rt.storeCtx.bytecode = true)
    (he : (o.callMain rt.storeCtx).err = some err) :
    ((o.callMain rt.storeCtx).ctx.catch_trap = false →
      Runtime.catch_trap o.trapCodeExit err ≠ 0 →
      Runtime.call o rt = Except.error err) ∧
    ((o.callMain rt.storeCtx).ctx.catch_trap = true →
      Runtime.call o rt = Except.ok
        { runtime_context :=
            { (o.callMain rt.storeCtx).ctx with
                exit_code := Runtime.catch_trap o.trapCodeExit err }
          tracer := (o.callMain rt.storeCtx).trace
          fuel_consumed :=
            if rt.config.consumeFuel then some (o.callMain rt.storeCtx).fuelConsumed
            else none }) ∧
    (Runtime.catch_trap o.trapCodeExit err = 0 →
      Runtime.call o rt = Except.ok
        { runtime_context := { (o.callMain rt.storeCtx).ctx with exit_code := 0 }
          tracer := (o.callMain rt.storeCtx).trace
          fuel_consumed :=
            if rt.config.consumeFuel then some (o.callMain rt.storeCtx).fuelConsumed
            else none }) := by
  refine ⟨?_, ?_, ?_⟩
  · intro h1 h2
    unfold Runtime.call
    rw [if_pos hm]
    simp only [he]
    rw [if_pos ⟨h2, h1⟩]
  · intro h1
    unfold Runtime.call
    rw [if_pos hm]
    simp only [he]
    rw [if_neg]
    intro hx
    rw [h1] at hx
    exact Bool.noConfusion hx.2
  · intro h1
    unfold Runtime.call
    rw [if_pos hm]
    simp only [he]
    rw [if_neg]
    · rw [h1]
    · intro hx
      exact hx.1 h1

/-- C2 witness: the three branches exercised at concrete engines. -/
theorem call_guest_error_branches_witness :
    (gracefulHaltOracle.callMain baseRt.storeCtx).err =
      some (RuntimeError.rwasm (RwasmError.trap
        { i32_exit_status := some 0, trap_code := none })) ∧
    Runtime.call gracefulHaltOracle baseRt =
      Except.ok
        { runtime_context :=
            { (gracefulHaltOracle.callMain baseRt.storeCtx).ctx with exit_code := 0 }
          tracer := (gracefulHaltOracle.callMain baseRt.storeCtx).trace
          fuel_consumed :=
            if baseRt.config.consumeFuel then
              some (gracefulHaltOracle.callMain baseRt.storeCtx).fuelConsumed
            else none } :=
  ⟨rfl,
    (call_guest_error_branches gracefulHaltOracle baseRt
      (RuntimeError.rwasm (RwasmError.trap
        { i32_exit_status := some 0, trap_code := none })) rfl rfl).2.2 rfl⟩

/-- C4: a module without a zero-argument `"main"` export makes `call` fail
with `MissingEntrypoint`, and `run_with_context` propagates that error to the
caller whatever the value of `catch_trap` is. -/
theorem missing_main_fails_missing_entrypoint (o : EngineOracle DB) (rt : Runtime DB)
    (ctx : RuntimeContext DB)
    (hm : o.hasMain rt.storeCtx.bytecode = false)
    (hp : o.parseErr ctx.bytecode = none)
    (hi : o.instErr ctx = none)
    (hm2 : o.hasMain ctx.bytecode = false) :
    Runtime.call o rt = Except.error RuntimeError.missingEntrypoint ∧
    Runtime.run_with_context o ctx = Except.error RuntimeError.missingEntrypoint := by
  constructor
  · unfold Runtime.call
    rw [if_neg]
    rw [hm]
    exact Bool.noConfusion
  · unfold Runtime.run_with_context Runtime.new Runtime.new_uninit
      Runtime.register_bindings Runtime.instantiate
    simp only [hp, hi]
    unfold Runtime.call
    rw [if_neg]
    dsimp only [RuntimeContext.clean_output]
    rw [hm2]
    exact Bool.noConfusion

/-- C4 witness: the no-entrypoint engine at a concrete runtime and context. -/
theorem missing_main_fails_missing_entrypoint_witness :
    Runtime.call noMainOracle baseRt = Except.error RuntimeError.missingEntrypoint ∧
    Runtime.run_with_context noMainOracle (RuntimeContext.new Unit []) =
      Except.error RuntimeError.missingEntrypoint :=
  ⟨(missing_main_fails_missing_entrypoint noMainOracle baseRt
      (RuntimeContext.new Unit []) rfl rfl rfl rfl).1,
   (missing_main_fails_missing_entrypoint noMainOracle baseRt
      (RuntimeContext.new Unit []) rfl rfl rfl rfl).2⟩

/-- C5 counterexample: a caller context carrying nonempty `output` run
against malformed bytecode with `catch_trap = true`: the result's `output` is
the carried-over `[1]`, not empty and not bytes the guest (which writes
nothing) produced — the load-error path returns the context without clearing
`output`. -/
theorem load_error_output_carried_cex :
    carriedCtx.catch_trap = true ∧
    carriedCtx.output = [1] ∧
    Runtime.run_with_context badParseOracle carriedCtx =
      Except.ok
        { runtime_context := { carriedCtx with exit_code := ExitCode.UnknownError }
          tracer := []
          fuel_consumed := none } ∧
    ({ carriedCtx with exit_code := ExitCode.UnknownError }).output = [1] ∧
    (badParseOracle.callMain carriedCtx.clean_output).ctx.output = [] :=
  ⟨rfl, rfl, rfl, rfl, rfl⟩

/-- C5 (amended): when the module loads, `output` is cleared before the
entry point is called, and the result's `output` is exactly the output of
the guest step started from the empty-output context; on the catch-trap
load-error path the entry point is never called and the caller's context —
its `output` included — is returned with only `exit_code` changed. -/
theorem output_cleared_before_entry (o : EngineOracle DB) (ctx : RuntimeContext DB) :
    (∀ rt, Runtime.new o ctx = Except.ok rt →
      Runtime.run_with_context o ctx =
          Runtime.call o { rt with storeCtx := ctx.clean_output } ∧
        (ctx.clean_output).output = [] ∧
        ∀ r, Runtime.run_with_context o ctx = Except.ok r →
          r.runtime_context.output = (o.callMain ctx.clean_output).ctx.output) ∧
    (∀ e, ctx.catch_trap = true → Runtime.new o ctx = Except.error e →
      Runtime.run_with_context o ctx =
        Except.ok
          { runtime_context := { ctx with exit_code := Runtime.catch_trap o.trapCodeExit e }
            tracer := []
            fuel_consumed := none }) := by
  constructor
  · intro rt hN
    have hs := Runtime.new_ok_storeCtx o ctx rt hN
    have hrun : Runtime.run_with_context o ctx =
        Runtime.call o { rt with storeCtx := ctx.clean_output } := by
      unfold Runtime.run_with_context
      simp only [hN]
      rw [hs]
    refine ⟨hrun, rfl, ?_⟩
    intro r hr
    rw [hrun] at hr
    have := Runtime.call_ok_output o { rt with storeCtx := ctx.clean_output } r hr
    exact this
  · intro e hc hN
    exact Runtime.run_load_error o ctx e hc hN

/-- C5 witness: both paths at concrete engines — a dirty caller context on
the successful-load path, and the load-error path. -/
theorem output_cleared_before_entry_witness :
    Runtime.new plainOracle dirtyCtx = Except.ok dirtyRt ∧
    dirtyCtx.output = [9] ∧
    (dirtyCtx.clean_output).output = [] ∧
    Runtime.run_with_context plainOracle dirtyCtx = Except.ok dirtyRunResult ∧
    dirtyRunResult.runtime_context.output =
      (plainOracle.callMain dirtyCtx.clean_output).ctx.output :=
  ⟨rfl, rfl, ((output_cleared_before_entry plainOracle dirtyCtx).1 dirtyRt rfl).2.1, rfl,
   ((output_cleared_before_entry plainOracle dirtyCtx).1 dirtyRt rfl).2.2 dirtyRunResult rfl⟩

/-- C6: when `catch_trap` is true and `Runtime::new` fails,
`run_with_context` returns `Ok` with the translated exit code written into
the otherwise unchanged caller context, an empty trace, and no fuel tally. -/
theorem catch_trap_load_error_result (o : EngineOracle DB) (ctx : RuntimeContext DB)
    (e : RuntimeError) (hc : ctx.catch_trap = true)
    (h : Runtime.new o ctx = Except.error e) :
    Runtime.run_with_context o ctx =
      Except.ok
        { runtime_context := { ctx with exit_code := Runtime.catch_trap o.trapCodeExit e }
          tracer := []
          fuel_consumed := none } :=
  Runtime.run_load_error o ctx e hc h

/-- C6 witness: a parse failure under `catch_trap = true` at a concrete
context. -/
theorem catch_trap_load_error_result_witness :
    (RuntimeContext.new Unit []).catch_trap = true ∧
    Runtime.new badParseOracle (RuntimeContext.new Unit []) =
      Except.error (RuntimeError.rwasm RwasmError.other) ∧
    Runtime.run_with_context badParseOracle (RuntimeContext.new Unit []) =
      Except.ok
        { runtime_context :=
            { RuntimeContext.new Unit [] with exit_code := ExitCode.UnknownError }
          tracer := []
          fuel_consumed := none } :=
  ⟨rfl, rfl,
    catch_trap_load_error_result badParseOracle (RuntimeContext.new Unit [])
      (RuntimeError.rwasm RwasmError.other) rfl rfl⟩

/-- C7: `new_uninit` always disables floating point; fuel consumption is
enabled in eager mode and the store credited with exactly `fuel_limit` units
precisely when `fuel_limit > 0`; with `fuel_limit = 0` no fuel is configured
or credited. -/
theorem new_uninit_config_fuel (o : EngineOracle DB) (ctx : RuntimeContext DB)
    (rt : Runtime DB) (h : Runtime.new_uninit o ctx = Except.ok rt) :
    rt.config.floats = false ∧
    (0 < ctx.fuel_limit →
      rt.config.consumeFuel = true ∧
      rt.config.fuelMode = some FuelConsumptionMode.eagerMode ∧
      rt.storeFuel = ctx.fuel_limit) ∧
    (ctx.fuel_limit = 0 →
      rt.config.consumeFuel = false ∧
      rt.config.fuelMode = none ∧
      rt.storeFuel = 0) := by
  unfold Runtime.new_uninit at h
  cases hp : o.parseErr ctx.bytecode with
  | some e => simp only [hp] at h; exact Except.noConfusion h
  | none =>
    simp only [hp, Except.ok.injEq] at h
    subst h
    refine ⟨?_, ?_, ?_⟩
    · by_cases hf : 0 < ctx.fuel_limit <;>
        simp [RwasmModule.default_config, hf]
    · intro hf
      simp [RwasmModule.default_config, hf]
    · intro hf
      simp [RwasmModule.default_config, hf]

/-- C7 witness: a metered context with `fuel_limit = 5`. -/
theorem new_uninit_config_fuel_witness :
    Runtime.new_uninit plainOracle fueledCtx = Except.ok fueledRt ∧
    0 < fueledCtx.fuel_limit ∧
    fueledRt.config.floats = false ∧
    fueledRt.config.consumeFuel = true ∧
    fueledRt.config.fuelMode = some FuelConsumptionMode.eagerMode ∧
    fueledRt.storeFuel = fueledCtx.fuel_limit :=
  ⟨rfl, by decide,
   (new_uninit_config_fuel plainOracle fueledCtx fueledRt rfl).1,
   ((new_uninit_config_fuel plainOracle fueledCtx fueledRt rfl).2.1 (by decide)).1,
   ((new_uninit_config_fuel plainOracle fueledCtx fueledRt rfl).2.1 (by decide)).2.1,
   ((new_uninit_config_fuel plainOracle fueledCtx fueledRt rfl).2.1 (by decide)).2.2⟩

/-- C9: the dynamic-sequence header is exactly 12 bytes (count, body offset,
body length, little-endian u32 each); encoding the bytes `AA BB CC` at field
offset 0 yields `[03,00,00,00, 0C,00,00,00, 03,00,00,00, AA,BB,CC]`, and
decoding those bytes returns `AA BB CC`. -/
theorem vec_codec_concrete_bytes :
    VecCodec.HEADER_SIZE = 12 ∧
    VecCodec.encode_to_vec byteCodec [(0xAA : Fin 256), 0xBB, 0xCC] =
      [3, 0, 0, 0, 12, 0, 0, 0, 3, 0, 0, 0, 0xAA, 0xBB, 0xCC] ∧
    VecCodec.decode_from byteCodec
        [3, 0, 0, 0, 12, 0, 0, 0, 3, 0, 0, 0, 0xAA, 0xBB, 0xCC] =
      [(0xAA : Fin 256), 0xBB, 0xCC] := by
  refine ⟨rfl, by decide, by decide⟩

/- ### Boundary codec lemmas and the round-trip claim -/

theorem u32le_length (v : Nat) : (u32le v).length = 4 := rfl

theorem writeAt_length (buf : List Nat) (off : Nat) (bytes : List Nat)
    (h : off + bytes.length ≤ buf.length) :
    (writeAt buf off bytes).length = buf.length := by
  simp [writeAt]
  omega

theorem writeAt_writeAt (buf : List Nat) (off : Nat) (a b : List Nat)
    (h : off + a.length ≤ buf.length) :
    writeAt (writeAt buf off a) (off + a.length) b = writeAt buf off (a ++ b) := by
  unfold writeAt
  have htk : (buf.take off ++ a ++ buf.drop (off + a.length)).take (off + a.length) =
      buf.take off ++ a := by
    refine List.take_left' ?_
    simp
    omega
  have hdp : (buf.take off ++ a ++ buf.drop (off + a.length)).drop
      (off + a.length + b.length) = buf.drop (off + (a ++ b).length) := by
    rw [show off + a.length + b.length = (buf.take off ++ a).length + b.length from by
      simp; omega]
    rw [List.drop_append]
    rw [List.drop_drop]
    congr 1
    simp
    omega
  rw [htk, hdp]
  simp [List.append_assoc]

theorem slice_take_prefix (l u w : List Nat) (k : Nat) (hk : u.length ≤ k)
    (h : l.take k = u ++ w) : l.take u.length = u := by
  have h2 := congrArg (List.take u.length) h
  rw [List.take_take, Nat.min_eq_left hk, List.take_left] at h2
  exact h2

theorem slice_drop_suffix (l u w : List Nat) (k : Nat)
    (h : l.take k = u ++ w) : (l.drop u.length).take (k - u.length) = w := by
  have h2 := congrArg (List.drop u.length) h
  rw [List.drop_take, List.drop_left] at h2
  exact h2

theorem readU32_of_slice (buf : List Nat) (off w : Nat)
    (h : (buf.drop off).take 4 = u32le w) :
    readU32 buf off = w % 4294967296 := by
  have hj : ∀ j, j < 4 → readByte buf (off + j) = (u32le w).getD j 0 := by
    intro j hj4
    rw [← h]
    simp only [readByte, List.getD_eq_getElem?_getD]
    rw [List.getElem?_take_of_lt hj4, List.getElem?_drop]
  have h0 := hj 0 (by omega)
  have h1 := hj 1 (by omega)
  have h2 := hj 2 (by omega)
  have h3 := hj 3 (by omega)
  rw [Nat.add_zero] at h0
  unfold readU32
  rw [h0, h1, h2, h3]
  simp only [u32le, List.getD_cons_zero, List.getD_cons_succ]
  omega

theorem hdrsAt_length (hdr : α → Nat → List Nat) (body : α → List Nat) (H : Nat)
    (hl : ∀ x p, (hdr x p).length = H) :
    ∀ (v : List α) (p : Nat), (hdrsAt hdr body p v).length = H * v.length := by
  intro v
  induction v with
  | nil => intro p; simp [hdrsAt]
  | cons x xs ih =>
    intro p
    simp only [hdrsAt, List.length_append, hl, ih, List.length_cons]
    ring

theorem concatRep_append (rep : α → List Nat) (a b : List α) :
    concatRep rep (a ++ b) = concatRep rep a ++ concatRep rep b := by
  induction a with
  | nil => simp [concatRep]
  | cons x xs ih => simp [concatRep, ih]

theorem hdrsAt_drop (hdr : α → Nat → List Nat) (body : α → List Nat) (H : Nat)
    (hl : ∀ x p, (hdr x p).length = H) (v : List α) :
    ∀ (p i : Nat) (hi : i < v.length),
      (hdrsAt hdr body p v).drop (H * i) =
        hdr (v.get ⟨i, hi⟩) (p + (concatRep body (v.take i)).length) ++
          hdrsAt hdr body (p + (concatRep body (v.take (i + 1))).length)
            (v.drop (i + 1)) := by
  induction v with
  | nil => intro p i hi; exact absurd hi (by simp)
  | cons x xs ih =>
    intro p i hi
    cases i with
    | zero =>
      simp [hdrsAt, concatRep]
    | succ j =>
      have hj : j < xs.length := by simpa using hi
      rw [hdrsAt]
      rw [show H * (j + 1) = (hdr x p).length + H * j from by rw [hl]; ring]
      rw [List.drop_append]
      rw [ih (p + (body x).length) j hj]
      simp [concatRep, Nat.add_assoc]

theorem encodeElems_dyn (c : ElemCodec α) (hdr : α → Nat → List Nat)
    (body : α → List Nat) (ok : α → Prop) (law : DynCodecLaw c hdr body ok)
    (xs : List α) :
    ∀ (k : Nat) (pre d : List Nat), pre.length = c.headerSize * k →
      encodeElems c xs k
          { fixed := pre ++ List.replicate (c.headerSize * xs.length) 0, dynamic := d } =
        { fixed := pre ++
            hdrsAt hdr body (pre.length + c.headerSize * xs.length + d.length) xs,
          dynamic := d ++ concatRep body xs } := by
  induction xs with
  | nil => intro k pre d hk; simp [encodeElems, concatRep, hdrsAt]
  | cons x xs ih =>
    intro k pre d hk
    rw [encodeElems]
    rw [law.encode_eq x _ (c.headerSize * k)
      (by simp [List.length_cons, hk, Nat.mul_succ])]
    rw [show (pre ++ List.replicate (c.headerSize * (x :: xs).length) (0 : Nat)).length +
        d.length = pre.length + c.headerSize * (x :: xs).length + d.length from by simp]
    have hsplit : (List.replicate (c.headerSize * (x :: xs).length) (0 : Nat)) =
        List.replicate c.headerSize 0 ++ List.replicate (c.headerSize * xs.length) 0 := by
      rw [← List.replicate_add]
      congr 1
      simp only [List.length_cons]
      ring
    rw [hsplit]
    have hdrop : (pre ++ (List.replicate c.headerSize 0 ++
        List.replicate (c.headerSize * xs.length) 0)).drop
          (c.headerSize * k + c.headerSize) =
        List.replicate (c.headerSize * xs.length) 0 := by
      rw [← List.append_assoc]
      apply List.drop_left'
      simp [hk]
    have hwa : writeAt (pre ++ (List.replicate c.headerSize 0 ++
        List.replicate (c.headerSize * xs.length) 0)) (c.headerSize * k)
          (hdr x (pre.length + c.headerSize * (x :: xs).length + d.length)) =
        (pre ++ hdr x (pre.length + c.headerSize * (x :: xs).length + d.length)) ++
          List.replicate (c.headerSize * xs.length) 0 := by
      unfold writeAt
      rw [List.take_left' hk, law.hdr_len, hdrop]
    rw [hwa]
    rw [ih (k + 1) (pre ++ hdr x (pre.length + c.headerSize * (x :: xs).length + d.length))
      (d ++ body x) (by simp [hk, law.hdr_len, Nat.mul_succ])]
    simp only [BufferEncoder.mk.injEq]
    constructor
    · rw [List.append_assoc]
      congr 1
      rw [hdrsAt]
      congr 2
      simp [law.hdr_len, List.length_cons]
      ring
    · simp [concatRep, List.append_assoc]

theorem vecBody_eq (c : ElemCodec α) (hdr : α → Nat → List Nat)
    (body : α → List Nat) (ok : α → Prop) (law : DynCodecLaw c hdr body ok)
    (v : List α) :
    vecBody c v =
      hdrsAt hdr body (c.headerSize * v.length) v ++ concatRep body v := by
  unfold vecBody
  rw [show BufferEncoder.new (c.headerSize * v.length) =
      ({ fixed := [] ++ List.replicate (c.headerSize * v.length) 0,
         dynamic := [] } : BufferEncoder) from by simp [BufferEncoder.new]]
  rw [encodeElems_dyn c hdr body ok law v 0 [] [] (by simp)]
  simp [BufferEncoder.finalize]

theorem map_range_get (xs : List α) (f : Nat → α)
    (h : ∀ i (hi : i < xs.length), f i = xs.get ⟨i, hi⟩) :
    (List.range xs.length).map f = xs := by
  apply List.ext_get
  · simp
  · intro n h1 h2
    rw [List.get_map, List.get_range]
    exact h n h2

theorem decode_elem_in_vecBody (c : ElemCodec α) (hdr : α → Nat → List Nat)
    (body : α → List Nat) (ok : α → Prop) (law : DynCodecLaw c hdr body ok)
    (v : List α) (hall : ∀ x ∈ v, ok x)
    (hBlen : (vecBody c v).length < 4294967296)
    (i : Nat) (hi : i < v.length) :
    c.decode_body (vecBody c v) (c.headerSize * i) = v.get ⟨i, hi⟩ := by
  have hBeq := vecBody_eq c hdr body ok law v
  have hsplitv : concatRep body v =
      concatRep body (v.take i) ++ concatRep body (v.drop i) := by
    rw [← concatRep_append, List.take_append_drop]
  have hBlen2 : (vecBody c v).length =
      c.headerSize * v.length + (concatRep body v).length := by
    rw [hBeq]
    simp [hdrsAt_length hdr body c.headerSize law.hdr_len]
  apply law.decode_of_parts _ _ _
    (c.headerSize * v.length + (concatRep body (v.take i)).length)
    (hall _ (List.get_mem v i hi))
  · -- position fits in 32 bits
    have : (concatRep body (v.take i)).length ≤ (concatRep body v).length := by
      rw [hsplitv]
      simp
    omega
  · -- header chunk found at the element's slot
    rw [hBeq]
    rw [List.drop_append_of_le_length
      (by rw [hdrsAt_length hdr body c.headerSize law.hdr_len]
          exact Nat.mul_le_mul_left _ (Nat.le_of_lt hi))]
    rw [hdrsAt_drop hdr body c.headerSize law.hdr_len v (c.headerSize * v.length) i hi]
    rw [List.append_assoc]
    exact List.take_left' (law.hdr_len _ _)
  · -- body bytes found at the referenced position
    rw [hBeq]
    rw [show c.headerSize * v.length + (concatRep body (v.take i)).length =
        (hdrsAt hdr body (c.headerSize * v.length) v).length +
          (concatRep body (v.take i)).length from by
      rw [hdrsAt_length hdr body c.headerSize law.hdr_len]]
    rw [List.drop_append]
    rw [hsplitv, List.drop_left]
    rw [show v.drop i = v.get ⟨i, hi⟩ :: v.drop (i + 1) from List.drop_eq_getElem_cons hi]
    rw [concatRep]
    exact List.take_left _ _

/-- The `Vec<T>` codec construction preserves lawfulness: if the element
codec is lawful then so is the vector-of-elements codec, so nested dynamic
element types such as `Vec<Vec<u8>>` are covered. -/
theorem vecCodec_law (c : ElemCodec α) (hdr : α → Nat → List Nat)
    (body : α → List Nat) (ok : α → Prop) (law : DynCodecLaw c hdr body ok) :
    DynCodecLaw (vecCodec c) (vecHdr c) (vecBody c) (vecOk c ok) := by
  refine ⟨by norm_num [vecCodec, VecCodec.HEADER_SIZE], ?_, ?_, ?_⟩
  · intro v p
    simp [vecHdr, u32le, vecCodec, VecCodec.HEADER_SIZE]
  · -- encode_eq
    intro v e off hoff
    show VecCodec.encode c v e off = _
    unfold VecCodec.encode
    simp only [BufferEncoder.write_u32, BufferEncoder.write_bytes]
    have hoff4 : off + 4 ≤ e.fixed.length := by
      simp [vecCodec, VecCodec.HEADER_SIZE] at hoff
      omega
    have hlen1 : (writeAt e.fixed off (u32le v.length)).length = e.fixed.length :=
      writeAt_length e.fixed off (u32le v.length) (by rw [u32le_length]; omega)
    rw [hlen1]
    have hcomp := writeAt_writeAt e.fixed off (u32le v.length)
      (u32le (e.fixed.length + e.dynamic.length) ++
        u32le ((encodeElems c v 0
          (BufferEncoder.new (c.headerSize * v.length))).finalize).length)
      (by rw [u32le_length]; omega)
    rw [u32le_length] at hcomp
    rw [hcomp]
    rfl
  · -- decode_of_parts
    intro v buf off p hok hp hhdr hbody
    obtain ⟨hn, hBlen, hall⟩ := hok
    show VecCodec.decode_body c buf off = v
    have hhdr12 : (buf.drop off).take 12 =
        u32le v.length ++ (u32le p ++ u32le (vecBody c v).length) := by
      have : (vecCodec c).headerSize = 12 := rfl
      rw [this] at hhdr
      rw [hhdr]
      simp [vecHdr, List.append_assoc]
    have h1 : (buf.drop off).take 4 = u32le v.length := by
      have := slice_take_prefix (buf.drop off) (u32le v.length)
        (u32le p ++ u32le (vecBody c v).length) 12 (by rw [u32le_length]; omega) hhdr12
      rwa [u32le_length] at this
    have h2 : (buf.drop (off + 4)).take 8 = u32le p ++ u32le (vecBody c v).length := by
      have hs := slice_drop_suffix (buf.drop off) (u32le v.length)
        (u32le p ++ u32le (vecBody c v).length) 12 hhdr12
      rw [u32le_length] at hs
      rw [List.drop_drop] at hs
      norm_num at hs
      exact hs
    have h3 : (buf.drop (off + 4)).take 4 = u32le p := by
      have := slice_take_prefix (buf.drop (off + 4)) (u32le p)
        (u32le (vecBody c v).length) 8 (by rw [u32le_length]; omega) h2
      rwa [u32le_length] at this
    have h4 : (buf.drop (off + 8)).take 4 = u32le (vecBody c v).length := by
      have hs := slice_drop_suffix (buf.drop (off + 4)) (u32le p)
        (u32le (vecBody c v).length) 8 h2
      rw [u32le_length] at hs
      rw [List.drop_drop] at hs
      norm_num at hs
      rw [show off + 8 = off + 4 + 4 from by omega]
      exact hs
    have hcount : readU32 buf off = v.length := by
      rw [readU32_of_slice buf off v.length h1]
      exact Nat.mod_eq_of_lt hn
    have hoffv : readU32 buf (off + 4) = p := by
      rw [readU32_of_slice buf (off + 4) p h3]
      exact Nat.mod_eq_of_lt hp
    have hlenv : readU32 buf (off + 8) = (vecBody c v).length := by
      rw [readU32_of_slice buf (off + 8) (vecBody c v).length h4]
      exact Nat.mod_eq_of_lt hBlen
    have hbytes : read_bytes buf (off + 4) = vecBody c v := by
      unfold read_bytes read_bytes_header
      simp only
      rw [show off + 4 + 4 = off + 8 from by omega]
      rw [hoffv, hlenv]
      exact hbody
    unfold VecCodec.decode_body
    simp only [hcount, hbytes]
    exact map_range_get v _
      (fun i hi => decode_elem_in_vecBody c hdr body ok law v hall hBlen i hi)

/-- The primitive byte codec is lawful. -/
theorem byteCodec_law : DynCodecLaw byteCodec byteHdr byteBody byteOk := by
  refine ⟨by decide, fun x p => rfl, ?_, ?_⟩
  · intro x e off hoff
    simp [byteCodec, byteHdr, byteBody]
  · intro x buf off p hok hp h hb
    have hb2 : readByte buf off = x.val := by
      cases hd : buf.drop off with
      | nil =>
        rw [hd] at h
        simp [byteCodec, byteHdr] at h
      | cons a l =>
        rw [hd] at h
        simp [byteCodec, byteHdr] at h
        have hsome : buf[off]? = some a := by
          have hq := List.getElem?_drop buf off 0
          rw [hd] at hq
          simpa using hq.symm
        simp [readByte, List.getD_eq_getElem?_getD, hsome, h]
    apply Fin.ext
    simp [byteCodec, hb2, Nat.mod_eq_of_lt x.isLt]

/-- Top-level round trip for any lawful codec: decoding the finalized
encoding of a well-formed value at offset 0 returns the value. -/
theorem law_roundtrip (c : ElemCodec α) (hdr : α → Nat → List Nat)
    (body : α → List Nat) (ok : α → Prop) (law : DynCodecLaw c hdr body ok)
    (x : α) (hok : ok x) (hH : c.headerSize < 4294967296) :
    c.decode_body ((c.encode x (BufferEncoder.new c.headerSize) 0).finalize) 0 = x := by
  have henc : c.encode x (BufferEncoder.new c.headerSize) 0 =
      { fixed := writeAt (List.replicate c.headerSize 0) 0 (hdr x c.headerSize),
        dynamic := body x } := by
    have h := law.encode_eq x (BufferEncoder.new c.headerSize) 0
      (by simp [BufferEncoder.new])
    simpa [BufferEncoder.new] using h
  have hfix : writeAt (List.replicate c.headerSize 0) 0 (hdr x c.headerSize) =
      hdr x c.headerSize := by
    unfold writeAt
    simp [law.hdr_len]
  rw [henc]
  unfold BufferEncoder.finalize
  simp only [hfix]
  apply law.decode_of_parts x _ 0 c.headerSize hok hH
  · simp only [List.drop_zero]
    exact List.take_left' (law.hdr_len x c.headerSize)
  · rw [List.drop_left' (law.hdr_len x c.headerSize)]
    exact List.take_length _

theorem readU32_u32le_prefix (v : Nat) (rest : List Nat) :
    readU32 (u32le v ++ rest) 0 = v % 4294967296 := by
  simp [readU32, readByte, u32le]
  omega

/-- Normal form of a top-level vector encoding: 12-byte header (count,
body offset 12, body length) followed by the body. -/
theorem encode_to_vec_eq (c : ElemCodec α) (v : List α) :
    VecCodec.encode_to_vec c v =
      u32le v.length ++ u32le 12 ++ u32le (vecBody c v).length ++ vecBody c v := by
  have hv : VecCodec.encode_to_vec c v =
      (((BufferEncoder.new VecCodec.HEADER_SIZE).write_u32 0 v.length).write_bytes
        (0 + 4) (vecBody c v)).finalize := rfl
  rw [hv]
  simp only [VecCodec.HEADER_SIZE, BufferEncoder.write_u32, BufferEncoder.write_bytes,
    BufferEncoder.finalize, BufferEncoder.new]
  simp [writeAt, u32le, List.append_assoc]

/-- C8 (amended): for every lawful element codec — primitives and nested
dynamic vectors alike, via the closure of the law under the vector
construction — and every sequence of well-formed elements whose count and
encoded body length fit the unsigned 32-bit header fields, decoding the
encoding returns the original sequence. -/
theorem vec_codec_roundtrip (c : ElemCodec α) (hdr : α → Nat → List Nat)
    (body : α → List Nat) (ok : α → Prop) (law : DynCodecLaw c hdr body ok)
    (v : List α) (hall : ∀ x ∈ v, ok x)
    (h1 : v.length < 4294967296) (h2 : (vecBody c v).length < 4294967296) :
    VecCodec.decode_from c (VecCodec.encode_to_vec c v) = v :=
  law_roundtrip (vecCodec c) (vecHdr c) (vecBody c) (vecOk c ok)
    (vecCodec_law c hdr body ok law) v ⟨h1, h2, hall⟩ (by norm_num [vecCodec, VecCodec.HEADER_SIZE])

/-- C8 witness: the round trip at a nested dynamic element type, the
vector-of-byte-vectors value `[[AA], [BB, CC]]`, with all 32-bit bounds and
element well-formedness discharged concretely. -/
theorem vec_codec_roundtrip_witness :
    (([[0xAA], [0xBB, 0xCC]] : List (List (Fin 256))).length < 4294967296) ∧
    ((vecBody (vecCodec byteCodec) ([[0xAA], [0xBB, 0xCC]] : List (List (Fin 256)))).length <
      4294967296) ∧
    VecCodec.decode_from (vecCodec byteCodec)
        (VecCodec.encode_to_vec (vecCodec byteCodec)
          ([[0xAA], [0xBB, 0xCC]] : List (List (Fin 256)))) =
      [[0xAA], [0xBB, 0xCC]] :=
  ⟨by decide, by decide,
   vec_codec_roundtrip (vecCodec byteCodec) (vecHdr byteCodec) (vecBody byteCodec)
     (vecOk byteCodec byteOk)
     (vecCodec_law byteCodec byteHdr byteBody byteOk byteCodec_law)
     [[0xAA], [0xBB, 0xCC]]
     (by
       intro x hx
       simp only [List.mem_cons, List.not_mem_nil, or_false] at hx
       rcases hx with rfl | rfl
       · exact ⟨by decide, by decide, fun y hy => trivial⟩
       · exact ⟨by decide, by decide, fun y hy => trivial⟩)
     (by decide) (by decide)⟩

/-- C8 counterexample: the source truncates the element count with
`self.len() as u32`, so the byte vector of `2^32` zero bytes decodes to the
empty list: `decode(encode(v)) ≠ v` for this `v`. -/
theorem vec_codec_roundtrip_cex :
    VecCodec.decode_from byteCodec
        (VecCodec.encode_to_vec byteCodec (List.replicate 4294967296 (0 : Fin 256))) ≠
      List.replicate 4294967296 (0 : Fin 256) := by
  intro hEq
  rw [encode_to_vec_eq byteCodec] at hEq
  have hcount : readU32 (u32le (List.replicate 4294967296 (0 : Fin 256)).length ++
      u32le 12 ++
      u32le (vecBody byteCodec (List.replicate 4294967296 (0 : Fin 256))).length ++
      vecBody byteCodec (List.replicate 4294967296 (0 : Fin 256))) 0 = 0 := by
    rw [List.append_assoc, List.append_assoc, readU32_u32le_prefix]
    rw [List.length_replicate]
  unfold VecCodec.decode_from VecCodec.decode_body at hEq
  simp only [hcount, List.range_zero, List.map_nil] at hEq
  have hlen := congrArg List.length hEq
  rw [List.length_nil, List.length_replicate] at hlen
  exact absurd hlen (by omega)
